import Mathlib

/-!
Verification development for the configuration-driven transform pipeline in
`src/src/data/dataset.py` (classes `ChooseColsTransform`,
`DeleteOutlierInVolume`, `ConcatDataFrames`, `DataPipeline`, and the image
analogues `ResizeTransform`, `NormalizeTransform`, `ConvertColorTransform`,
`ImagePipeline`).

A pandas `DataFrame` is embedded as a list of column labels, a list of row
index labels, and a list of rows; a cell is `Option Rat`, with `none`
standing for the missing-value marker (NaN).  Python exceptions are embedded
as an `Except` error type whose constructors mirror the exception classes the
code can raise (`TypeError`, `KeyError`, `ValueError`, `RuntimeError`).
-/

namespace Pipeline

/-- A cell of a tabular record set; `none` is the no-value marker (NaN). -/
abbrev Cell := Option Rat

/-- Embedding of a pandas DataFrame: column labels, row index labels, rows.
Each row is a list of cells positionally aligned with `cols`. -/
structure DataFrame where
  cols : List String
  idx : List Nat
  rows : List (List Cell)
  deriving Repr, DecidableEq

/-- Default frame used for out-of-range heap reads. -/
def dfltDF : DataFrame := ⟨[], [], []⟩

/-- Embeds label-based cell access: `getCell cols r c` reads the cell of row `r` under column label `c`
(positional lookup of `c` in `cols`, as pandas does by label). -/
def getCell (cols : List String) (r : List Cell) (c : String) : Cell :=
  r.getD (cols.indexOf c) none

/-- Python exception values the pipeline code can raise, with their messages. -/
inductive PyError where
  | typeError (msg : String)
  | keyError (msg : String)
  | valueError (msg : String)
  | runtimeError (msg : String)
  deriving Repr, DecidableEq

/-- Configuration parameter values appearing in the YAML step configs. -/
inductive PVal where
  | vnum (q : Rat)
  | vint (n : Int)
  | vstr (s : String)
  | vcols (cs : List String)
  deriving Repr, DecidableEq

/-- One entry of `pre_processing_steps`: a kind tag and a keyword mapping. -/
structure Step where
  step : String
  params : List (String × PVal)
  deriving Repr, DecidableEq

/-- The parsed YAML configuration document. -/
structure Config where
  pre_processing_steps : List Step
  deriving Repr, DecidableEq

/-- The constructed tabular transforms (`ChooseColsTransform`,
`DeleteOutlierInVolume`, `ConcatDataFrames`), each carrying exactly the
parameters its `__init__` stores. -/
inductive Transform where
  | chooseCols (columns : List String)
  | deleteOutlier (volume_threshold : Rat)
  | concat (join_type : String)
  deriving Repr, DecidableEq

/-- The runtime value flowing through a `DataPipeline`: either a single
DataFrame or a Python list of DataFrames (the `isinstance(data, list)`
discriminant in the source). -/
inductive PData where
  | single (df : DataFrame)
  | many (dfs : List DataFrame)
  deriving Repr, DecidableEq

/-- Embeds `ChooseColsTransform.__call__` on one frame: `data[self.columns]`.
pandas column selection keeps the row index, returns the requested columns in
the requested order, and raises `KeyError` listing the labels absent from the
frame. -/
def chooseColumns (cs : List String) (df : DataFrame) : Except PyError DataFrame :=
  let missing := cs.filter (fun c => decide (c ∉ df.cols))
  if missing.isEmpty then
    .ok ⟨cs, df.idx, df.rows.map (fun r => cs.map (fun c => getCell df.cols r c))⟩
  else
    .error (.keyError ("[" ++ String.intercalate (", ") missing ++ "] not in index"))

/-- pandas ordering semantics of `value <= threshold` on a cell: a NaN
comparison is false, so a no-value cell is dropped by the filter. -/
def cellLE (c : Cell) (t : Rat) : Bool :=
  match c with
  | some v => decide (v ≤ t)
  | none => false

/-- Embeds `DeleteOutlierInVolume.__call__` on one frame:
`data[data["volume"] <= self.volume_threshold]`.  `data["volume"]` raises
`KeyError` when the column is absent; otherwise the boolean-mask selection
keeps exactly the rows whose volume cell compares `<=` to the threshold,
with their index labels and contents unchanged and in order. -/
def deleteOutlier (thr : Rat) (df : DataFrame) : Except PyError DataFrame :=
  if ("volume") ∈ df.cols then
    let kept := (df.idx.zip df.rows).filter
      (fun p => cellLE (getCell df.cols p.2 ("volume")) thr)
    .ok ⟨df.cols, kept.map Prod.fst, kept.map Prod.snd⟩
  else
    .error (.keyError ("volume"))

/-- Column alignment of `pd.concat(data, axis=0, join=...)`: `inner` keeps
the first frame's columns restricted to those present in every input,
`outer` keeps the union in order of first appearance (`sort=False` default);
any other join string raises `ValueError`. -/
def concatCols (jt : String) (dfs : List DataFrame) : Except PyError (List String) :=
  if jt = "inner" then
    .ok ((dfs.headD dfltDF).cols.filter (fun c => decide (∀ d ∈ dfs, c ∈ d.cols)))
  else if jt = "outer" then
    .ok (dfs.foldl (fun acc d => acc ++ d.cols.filter (fun c => decide (c ∉ acc))) [])
  else
    .error (.valueError ("Only can inner (intersect) or outer (union) join the other axis"))

/-- Reindexing of one source row onto the output columns: cells for columns
the source frame lacks become the no-value marker. -/
def projRow (srcCols outCols : List String) (r : List Cell) : List Cell :=
  outCols.map (fun c => if c ∈ srcCols then getCell srcCols r c else none)

/-- Embeds `pd.concat(data, axis=0, join=self.join_type)`: raises `ValueError` on an
empty list, otherwise stacks the reindexed rows of each input in order,
keeping the concatenated index labels. -/
def concatRaw (jt : String) (dfs : List DataFrame) : Except PyError DataFrame :=
  if dfs.isEmpty then
    .error (.valueError ("No objects to concatenate"))
  else
    match concatCols jt dfs with
    | .error e => .error e
    | .ok outCols =>
        .ok ⟨outCols, (dfs.map (fun d => d.idx)).flatten,
             (dfs.map (fun d => d.rows.map (projRow d.cols outCols))).flatten⟩

/-- Embeds `result.reset_index(drop=True, inplace=True)`: replaces the index labels
by the contiguous 0-based range. -/
def resetIndex (df : DataFrame) : DataFrame :=
  ⟨df.cols, List.range df.rows.length, df.rows⟩

/-- Embeds `ConcatDataFrames.__call__` on a list: concatenate, then reset the index. -/
def concatDF (jt : String) (dfs : List DataFrame) : Except PyError DataFrame :=
  (concatRaw jt dfs).map resetIndex

/-- A Python list comprehension `[f df for df in data]` over fallible `f`:
stops at the first raised exception. -/
def mapExcept (f : α → Except PyError β) : List α → Except PyError (List β)
  | [] => .ok []
  | a :: l =>
    match f a with
    | .error e => .error e
    | .ok b => (mapExcept f l).map (b :: ·)

/-- Embeds `__call__` of the three tabular transforms, with the
`isinstance(data, list)` branch of `ChooseColsTransform` and
`DeleteOutlierInVolume` mapping per element.  `ConcatDataFrames` passes its
argument straight to `pd.concat`, which raises `TypeError` when handed a
single DataFrame instead of a list. -/
def applyTransform : Transform → PData → Except PyError PData
  | .chooseCols cs, .single df => (chooseColumns cs df).map PData.single
  | .chooseCols cs, .many dfs => (mapExcept (chooseColumns cs) dfs).map PData.many
  | .deleteOutlier v, .single df => (deleteOutlier v df).map PData.single
  | .deleteOutlier v, .many dfs => (mapExcept (deleteOutlier v) dfs).map PData.many
  | .concat jt, .many dfs => (concatDF jt dfs).map PData.single
  | .concat _, .single _ =>
      .error (.typeError
        "first argument must be an iterable of pandas objects, you passed an object of type DataFrame")

/-- The per-frame body of each collection-aware transform (the
single-DataFrame branch of its `__call__`); `ConcatDataFrames` has none. -/
def perFrame : Transform → Option (DataFrame → Except PyError DataFrame)
  | .chooseCols cs => some (chooseColumns cs)
  | .deleteOutlier v => some (deleteOutlier v)
  | .concat _ => none

/-- CPython keyword-argument binding for `Cls(**params)` against a fixed
`__init__` signature: an unexpected keyword raises `TypeError` first, then a
missing required argument raises `TypeError`; only names are checked here,
exactly as in CPython. -/
def checkKw (cls : String) (expected : List String) (params : List (String × PVal)) :
    Except PyError Unit :=
  match params.find? (fun p => decide (p.1 ∉ expected)) with
  | some p =>
      .error (.typeError (cls ++ ".__init__() got an unexpected keyword argument " ++ p.1))
  | none =>
    match expected.find? (fun k => (params.lookup k).isNone) with
    | some k =>
        .error (.typeError
          (cls ++ ".__init__() missing 1 required positional argument: " ++ k))
    | none => .ok ()

/-- The keyword names of `params` match the signature `expected` exactly. -/
def kwNamesOk (expected : List String) (params : List (String × PVal)) : Bool :=
  params.all (fun p => decide (p.1 ∈ expected)) &&
    expected.all (fun k => (params.lookup k).isSome)

/-- One iteration of `DataPipeline._build_pipeline`: dispatch on the step
name; a recognized name constructs its transform from the keyword mapping, an
unrecognized name falls through the `if`/`elif` chain and contributes
nothing (`.ok none`).  CPython checks only keyword names at construction and
uses the values as stored; the embedding is typed, so a value of an
unexpected shape under a correct name is rejected here as a `TypeError`. -/
def buildStep (s : Step) : Except PyError (Option Transform) :=
  if s.step = "choose_columns" then
    match checkKw ("ChooseColsTransform") ["columns"] s.params with
    | .error e => .error e
    | .ok _ =>
      match s.params.lookup ("columns") with
      | some (PVal.vcols cs) => .ok (some (.chooseCols cs))
      | _ => .error (.typeError ("columns must be a list of column labels"))
  else if s.step = "delete_outlier_in_volume" then
    match checkKw ("DeleteOutlierInVolume") ["volume_threshold"] s.params with
    | .error e => .error e
    | .ok _ =>
      match s.params.lookup ("volume_threshold") with
      | some (PVal.vnum q) => .ok (some (.deleteOutlier q))
      | _ => .error (.typeError ("volume_threshold must be a number"))
  else if s.step = "concat_dataframes" then
    match checkKw ("ConcatDataFrames") ["join_type"] s.params with
    | .error e => .error e
    | .ok _ =>
      match s.params.lookup ("join_type") with
      | some (PVal.vstr jt) => .ok (some (.concat jt))
      | _ => .error (.typeError ("join_type must be a string"))
  else
    .ok none

/-- The step names `DataPipeline._build_pipeline` recognizes. -/
def dataRegistry : List String :=
  ["choose_columns", "delete_outlier_in_volume", "concat_dataframes"]

/-- The `__init__` keyword signature of the transform class behind each
recognized tabular step name. -/
def expectedKw : String → List String
  | "choose_columns" => ["columns"]
  | "delete_outlier_in_volume" => ["volume_threshold"]
  | "concat_dataframes" => ["join_type"]
  | _ => []

/-- The `for step in self.pre_processing_steps` loop shared by
`DataPipeline._build_pipeline` and `ImagePipeline._build_pipeline`:
transforms are appended in configuration order, a skipped step contributes
nothing, and a raised exception aborts the loop. -/
def buildList (bs : Step → Except PyError (Option τ)) : List Step → Except PyError (List τ)
  | [] => .ok []
  | s :: rest =>
    match bs s with
    | .error e => .error e
    | .ok none => buildList bs rest
    | .ok (some t) => (buildList bs rest).map (t :: ·)

/-- The full loop of `DataPipeline._build_pipeline` over the step list. -/
def buildSteps : List Step → Except PyError (List Transform) :=
  buildList buildStep

/-- Models `torchvision.transforms.Compose`: its `__call__` runs
`for t in self.transforms: img = t(img)` and returns the running value, so
an exception raised by any transform aborts the loop.  Generic in the
transform type and the value type since `DataPipeline` and `ImagePipeline`
share it. -/
def composeApply (app : τ → α → Except PyError α) : List τ → α → Except PyError α
  | [], x => .ok x
  | t :: ts, x =>
    match app t x with
    | .error e => .error e
    | .ok y => composeApply app ts y

/-- The fields of a `DataPipeline` object after `__init__` that `apply`
reads: `composed_transforms` is `None` until `_build_pipeline` completes. -/
structure DataPipelineState where
  transformations : List Transform
  composed_transforms : Option (List Transform)
  deriving Repr, DecidableEq

/-- Embeds `DataPipeline.__init__` after the config is loaded: `_build_pipeline`
either raises (propagating the exception, leaving no usable object) or sets
`composed_transforms` to the composition of the built list. -/
def DataPipeline.construct (cfg : Config) : Except PyError DataPipelineState :=
  (buildSteps cfg.pre_processing_steps).map (fun ts => ⟨ts, some ts⟩)

/-- The exact message of the `RuntimeError` in `DataPipeline.apply` and
`ImagePipeline.apply`. -/
def notBuiltMsg : String :=
  "The transformation pipeline has not been built successfully."

/-- Embeds `DataPipeline.apply`: a `None` composition raises `RuntimeError` before
any transform runs; otherwise the composed transforms are applied to the
data. -/
def DataPipelineState.apply (st : DataPipelineState) (data : PData) :
    Except PyError PData :=
  match st.composed_transforms with
  | none => .error (.runtimeError notBuiltMsg)
  | some ts => composeApply applyTransform ts data

/-- A 2D numeric image array (the image-domain value of `ImagePipeline`). -/
abbrev Image := List (List Rat)

/-- The constructed image transforms (`ResizeTransform`,
`NormalizeTransform`, `ConvertColorTransform`), each carrying exactly the
parameters its `__init__` stores. -/
inductive ImageTransform where
  | resize (width height : Int)
  | normalize (mean std : Rat)
  | convertColor (code : Int)
  deriving Repr, DecidableEq

/-- One iteration of `ImagePipeline._build_pipeline`: the same `if`/`elif`
dispatch over `resize`, `normalize`, `convert_color`; unrecognized names
contribute nothing. -/
def buildImageStep (s : Step) : Except PyError (Option ImageTransform) :=
  if s.step = "resize" then
    match checkKw ("ResizeTransform") ["width", "height"] s.params with
    | .error e => .error e
    | .ok _ =>
      match s.params.lookup ("width"), s.params.lookup ("height") with
      | some (PVal.vint w), some (PVal.vint h) => .ok (some (.resize w h))
      | _, _ => .error (.typeError ("width and height must be integers"))
  else if s.step = "normalize" then
    match checkKw ("NormalizeTransform") ["mean", "std"] s.params with
    | .error e => .error e
    | .ok _ =>
      match s.params.lookup ("mean"), s.params.lookup ("std") with
      | some (PVal.vnum m), some (PVal.vnum sd) => .ok (some (.normalize m sd))
      | _, _ => .error (.typeError ("mean and std must be numbers"))
  else if s.step = "convert_color" then
    match checkKw ("ConvertColorTransform") ["code"] s.params with
    | .error e => .error e
    | .ok _ =>
      match s.params.lookup ("code") with
      | some (PVal.vint code) => .ok (some (.convertColor code))
      | _ => .error (.typeError ("code must be an integer"))
  else
    .ok none

/-- The step names `ImagePipeline._build_pipeline` recognizes. -/
def imageRegistry : List String := ["resize", "normalize", "convert_color"]

/-- The full loop of `ImagePipeline._build_pipeline` over the step list. -/
def buildImageSteps : List Step → Except PyError (List ImageTransform) :=
  buildList buildImageStep

/-- Modelled from the spec: the image transforms are thin wrappers over
external library calls (`cv2.resize`, numpy array arithmetic,
`cv2.cvtColor`) whose numeric internals live outside this repository; the
spec records them only as image-domain analogues operating on a single
2D/3D numeric array.  Resize is modelled as index sampling onto a
height-by-width grid, normalize as the pointwise map x ↦ (x - mean) / std
over exact rationals, and convert-color as an opaque recoding that the model
takes to preserve the array. -/
def applyImageTransform : ImageTransform → Image → Except PyError Image
  | .resize w h, img =>
      .ok ((List.range h.toNat).map (fun i =>
        (List.range w.toNat).map (fun j =>
          let row := img.getD (i * img.length / h.toNat) []
          row.getD (j * row.length / w.toNat) 0)))
  | .normalize m sd, img => .ok (img.map (fun row => row.map (fun x => (x - m) / sd)))
  | .convertColor _, img => .ok img

/-- The fields of an `ImagePipeline` object after `__init__` that `apply`
reads. -/
structure ImagePipelineState where
  transformations : List ImageTransform
  composed_transforms : Option (List ImageTransform)
  deriving Repr, DecidableEq

/-- Embeds `ImagePipeline.__init__` after the config is loaded. -/
def ImagePipeline.construct (cfg : Config) : Except PyError ImagePipelineState :=
  (buildImageSteps cfg.pre_processing_steps).map (fun ts => ⟨ts, some ts⟩)

/-- Embeds `ImagePipeline.apply`: identical un-built guard, then the composed
transforms run on the image. -/
def ImagePipelineState.apply (st : ImagePipelineState) (img : Image) :
    Except PyError Image :=
  match st.composed_transforms with
  | none => .error (.runtimeError notBuiltMsg)
  | some ts => composeApply applyImageTransform ts img

/-- An object heap of DataFrame values, for stating that transforms do not
mutate their inputs: references are heap positions, and Python object
creation is modelled as appending to the heap. -/
abbrev Heap := List DataFrame

/-- A reference-level pipeline value: a reference to one frame or a Python
list of references. -/
inductive PRef where
  | single (r : Nat)
  | many (rs : List Nat)
  deriving Repr, DecidableEq

/-- The list comprehension of a collection-aware transform at the heap
level: each element's result is a freshly created frame; source frames are
only read. -/
def allocMany (f : DataFrame → Except PyError DataFrame) :
    Heap → List Nat → Except PyError (Heap × List Nat)
  | h, [] => .ok (h, [])
  | h, r :: rs =>
    match f (h.getD r dfltDF) with
    | .error e => .error e
    | .ok df =>
        (allocMany f (h ++ [df]) rs).map (fun p => (p.1, h.length :: p.2))

/-- Embeds `__call__` of the tabular transforms at the heap level.  `chooseCols` and
`deleteOutlier` read their input frames and return fresh frames;
`ConcatDataFrames` creates the fresh `pd.concat` result and then runs
`reset_index(drop=True, inplace=True)` on it, an in-place write that targets
only the freshly created object (modelled by `List.set` at its address). -/
def applyTransformH : Transform → Heap → PRef → Except PyError (Heap × PRef)
  | .chooseCols cs, h, .single r =>
      (chooseColumns cs (h.getD r dfltDF)).map (fun df => (h ++ [df], .single h.length))
  | .chooseCols cs, h, .many rs =>
      (allocMany (chooseColumns cs) h rs).map (fun p => (p.1, .many p.2))
  | .deleteOutlier v, h, .single r =>
      (deleteOutlier v (h.getD r dfltDF)).map (fun df => (h ++ [df], .single h.length))
  | .deleteOutlier v, h, .many rs =>
      (allocMany (deleteOutlier v) h rs).map (fun p => (p.1, .many p.2))
  | .concat jt, h, .many rs =>
      (concatRaw jt (rs.map (fun r => h.getD r dfltDF))).map (fun raw =>
        let h1 := h ++ [raw]
        (h1.set h.length (resetIndex raw), .single h.length))
  | .concat _, _, .single _ =>
      .error (.typeError
        "first argument must be an iterable of pandas objects, you passed an object of type DataFrame")

/-- Every reference of the result points past the original heap: the
transform returned newly created objects. -/
def refFresh (p : PRef) (h : Heap) : Prop :=
  match p with
  | .single r => h.length ≤ r
  | .many rs => ∀ r ∈ rs, h.length ≤ r

instance (p : PRef) (h : Heap) : Decidable (refFresh p h) := by
  unfold refFresh; cases p <;> infer_instance

/-! ## Helper lemmas -/

theorem zip_map_fst_snd (l : List (α × β)) :
    (l.map Prod.fst).zip (l.map Prod.snd) = l := by
  simpa [List.unzip_eq_map] using List.zip_unzip l

theorem except_map_ok {f : α → β} {e : Except PyError α} {b : β}
    (h : Except.map f e = Except.ok b) : ∃ a, e = Except.ok a ∧ f a = b := by
  cases e with
  | error e0 => simp [Except.map] at h
  | ok a => exact ⟨a, rfl, by simpa [Except.map] using h⟩

theorem checkKw_error_typeError {cls : String} {exp : List String}
    {ps : List (String × PVal)} {e : PyError}
    (h : checkKw cls exp ps = Except.error e) : ∃ m, e = PyError.typeError m := by
  unfold checkKw at h
  cases hf : ps.find? (fun p => decide (p.1 ∉ exp)) with
  | some p => rw [hf] at h; exact ⟨_, (Except.error.inj h).symm⟩
  | none =>
    rw [hf] at h
    cases hg : exp.find? (fun k => (ps.lookup k).isNone) with
    | some k => rw [hg] at h; exact ⟨_, (Except.error.inj h).symm⟩
    | none => rw [hg] at h; cases h

theorem checkKw_error_of_kwNamesOk_false {cls : String} {exp : List String}
    {ps : List (String × PVal)} (h : kwNamesOk exp ps = false) :
    ∃ m, checkKw cls exp ps = Except.error (PyError.typeError m) := by
  unfold checkKw
  cases hf : ps.find? (fun p => decide (p.1 ∉ exp)) with
  | some p => exact ⟨_, rfl⟩
  | none =>
    cases hg : exp.find? (fun k => (ps.lookup k).isNone) with
    | some k => exact ⟨_, rfl⟩
    | none =>
      exfalso
      rw [List.find?_eq_none] at hf hg
      have h1 : ps.all (fun p => decide (p.1 ∈ exp)) = true := by
        rw [List.all_eq_true]
        intro p hp
        have hp2 := hf p hp
        simpa using hp2
      have h2 : exp.all (fun k => (ps.lookup k).isSome) = true := by
        rw [List.all_eq_true]
        intro k hk
        have hk2 := hg k hk
        cases hc : ps.lookup k with
        | none => rw [hc] at hk2; simp at hk2
        | some v => rfl
      unfold kwNamesOk at h
      rw [h1, h2] at h
      simp at h

theorem buildStep_cases (s : Step) :
    (s.step ∉ dataRegistry ∧ buildStep s = Except.ok none) ∨
    (s.step ∈ dataRegistry ∧
      ((∃ t, buildStep s = Except.ok (some t)) ∨
       (∃ m, buildStep s = Except.error (PyError.typeError m)))) := by
  by_cases h1 : s.step = "choose_columns"
  · refine Or.inr ⟨by simp [dataRegistry, h1], ?_⟩
    unfold buildStep
    rw [if_pos h1]
    cases hc : checkKw ("ChooseColsTransform") ["columns"] s.params with
    | error e0 =>
        obtain ⟨m, rfl⟩ := checkKw_error_typeError hc
        exact Or.inr ⟨m, rfl⟩
    | ok u =>
        cases hl : s.params.lookup ("columns") with
        | none => exact Or.inr ⟨_, rfl⟩
        | some v => cases v with
          | vcols cs => exact Or.inl ⟨_, rfl⟩
          | vnum q => exact Or.inr ⟨_, rfl⟩
          | vint n => exact Or.inr ⟨_, rfl⟩
          | vstr t => exact Or.inr ⟨_, rfl⟩
  · by_cases h2 : s.step = "delete_outlier_in_volume"
    · refine Or.inr ⟨by simp [dataRegistry, h2], ?_⟩
      unfold buildStep
      rw [if_neg h1, if_pos h2]
      cases hc : checkKw ("DeleteOutlierInVolume") ["volume_threshold"] s.params with
      | error e0 =>
          obtain ⟨m, rfl⟩ := checkKw_error_typeError hc
          exact Or.inr ⟨m, rfl⟩
      | ok u =>
          cases hl : s.params.lookup ("volume_threshold") with
          | none => exact Or.inr ⟨_, rfl⟩
          | some v => cases v with
            | vnum q => exact Or.inl ⟨_, rfl⟩
            | vcols cs => exact Or.inr ⟨_, rfl⟩
            | vint n => exact Or.inr ⟨_, rfl⟩
            | vstr t => exact Or.inr ⟨_, rfl⟩
    · by_cases h3 : s.step = "concat_dataframes"
      · refine Or.inr ⟨by simp [dataRegistry, h3], ?_⟩
        unfold buildStep
        rw [if_neg h1, if_neg h2, if_pos h3]
        cases hc : checkKw ("ConcatDataFrames") ["join_type"] s.params with
        | error e0 =>
            obtain ⟨m, rfl⟩ := checkKw_error_typeError hc
            exact Or.inr ⟨m, rfl⟩
        | ok u =>
            cases hl : s.params.lookup ("join_type") with
            | none => exact Or.inr ⟨_, rfl⟩
            | some v => cases v with
              | vstr t => exact Or.inl ⟨_, rfl⟩
              | vcols cs => exact Or.inr ⟨_, rfl⟩
              | vint n => exact Or.inr ⟨_, rfl⟩
              | vnum q => exact Or.inr ⟨_, rfl⟩
      · refine Or.inl ⟨by simp [dataRegistry, h1, h2, h3], ?_⟩
        unfold buildStep
        rw [if_neg h1, if_neg h2, if_neg h3]

theorem buildStep_unknown {s : Step} (h : s.step ∉ dataRegistry) :
    buildStep s = Except.ok none := by
  rcases buildStep_cases s with ⟨_, he⟩ | ⟨hmem, _⟩
  · exact he
  · exact absurd hmem h

theorem buildStep_error_typeError {s : Step} {e : PyError}
    (h : buildStep s = Except.error e) : ∃ m, e = PyError.typeError m := by
  rcases buildStep_cases s with ⟨_, he⟩ | ⟨_, ⟨t, ht⟩ | ⟨m, hm⟩⟩
  · rw [he] at h; cases h
  · rw [ht] at h; cases h
  · rw [hm] at h; exact ⟨m, (Except.error.inj h).symm⟩

theorem buildStep_bad_kwargs {s : Step} (hmem : s.step ∈ dataRegistry)
    (hbad : kwNamesOk (expectedKw s.step) s.params = false) :
    ∃ m, buildStep s = Except.error (PyError.typeError m) := by
  have hmem3 : s.step = "choose_columns" ∨ s.step = "delete_outlier_in_volume" ∨
      s.step = "concat_dataframes" := by simpa [dataRegistry] using hmem
  rcases hmem3 with h1 | h2 | h3
  · rw [h1] at hbad
    obtain ⟨m, hm⟩ :=
      @checkKw_error_of_kwNamesOk_false ("ChooseColsTransform") _ _ hbad
    refine ⟨m, ?_⟩
    unfold buildStep
    rw [if_pos h1]
    rw [show expectedKw ("choose_columns") = ["columns"] from rfl] at hm
    rw [hm]
  · rw [h2] at hbad
    obtain ⟨m, hm⟩ :=
      @checkKw_error_of_kwNamesOk_false ("DeleteOutlierInVolume") _ _ hbad
    refine ⟨m, ?_⟩
    unfold buildStep
    have h1 : s.step ≠ "choose_columns" := by rw [h2]; decide
    rw [if_neg h1, if_pos h2]
    rw [show expectedKw ("delete_outlier_in_volume") = ["volume_threshold"] from rfl] at hm
    rw [hm]
  · rw [h3] at hbad
    obtain ⟨m, hm⟩ :=
      @checkKw_error_of_kwNamesOk_false ("ConcatDataFrames") _ _ hbad
    refine ⟨m, ?_⟩
    unfold buildStep
    have h1 : s.step ≠ "choose_columns" := by rw [h3]; decide
    have h2 : s.step ≠ "delete_outlier_in_volume" := by rw [h3]; decide
    rw [if_neg h1, if_neg h2, if_pos h3]
    rw [show expectedKw ("concat_dataframes") = ["join_type"] from rfl] at hm
    rw [hm]

theorem buildList_skip {bs : Step → Except PyError (Option τ)} {s : Step}
    (hs : bs s = Except.ok none) (pre post : List Step) :
    buildList bs (pre ++ s :: post) = buildList bs (pre ++ post) := by
  induction pre with
  | nil => simp only [List.nil_append, buildList, hs]
  | cons u pre ih =>
    rw [List.cons_append, List.cons_append]
    cases hu : bs u with
    | error e => simp only [buildList, hu]
    | ok r => cases r with
      | none =>
        simp only [buildList, hu]
        exact ih
      | some t =>
        simp only [buildList, hu]
        exact congrArg (Except.map (t :: ·)) ih

theorem buildList_ok_of_all {bs : Step → Except PyError (Option τ)} {l : List Step}
    (h : ∀ u ∈ l, ∃ r, bs u = Except.ok r) :
    ∃ ts, buildList bs l = Except.ok ts := by
  induction l with
  | nil => exact ⟨[], rfl⟩
  | cons s rest ih =>
    obtain ⟨r, hr⟩ := h s (List.mem_cons_self s rest)
    obtain ⟨ts, hts⟩ := ih (fun u hu => h u (List.mem_cons_of_mem s hu))
    cases r with
    | none => exact ⟨ts, by simp only [buildList, hr, hts]⟩
    | some t => exact ⟨t :: ts, by simp only [buildList, hr, hts, Except.map]⟩

theorem buildList_forall2 {bs : Step → Except PyError (Option τ)}
    {p : Step → Bool} {l : List Step}
    (hnone : ∀ s ∈ l, p s = false → bs s = Except.ok none)
    (hsome : ∀ s ∈ l, p s = true → ∃ t, bs s = Except.ok (some t)) :
    ∃ ts, buildList bs l = Except.ok ts ∧
      List.Forall₂ (fun s t => bs s = Except.ok (some t)) (l.filter p) ts := by
  induction l with
  | nil => exact ⟨[], rfl, List.Forall₂.nil⟩
  | cons s rest ih =>
    obtain ⟨ts, hts, hf⟩ :=
      ih (fun u hu => hnone u (List.mem_cons_of_mem s hu))
         (fun u hu => hsome u (List.mem_cons_of_mem s hu))
    cases hp : p s with
    | false =>
      have hs := hnone s (List.mem_cons_self s rest) hp
      exact ⟨ts, by simp only [buildList, hs, hts], by simp [List.filter, hp, hf]⟩
    | true =>
      obtain ⟨t, hs⟩ := hsome s (List.mem_cons_self s rest) hp
      refine ⟨t :: ts, by simp only [buildList, hs, hts, Except.map], ?_⟩
      rw [List.filter_cons_of_pos hp]
      exact List.Forall₂.cons hs hf

theorem buildList_error {bs : Step → Except PyError (Option τ)} {l : List Step}
    (htE : ∀ s e, bs s = Except.error e → ∃ m, e = PyError.typeError m)
    (hbad : ∃ s ∈ l, ∃ e, bs s = Except.error e) :
    ∃ m, buildList bs l = Except.error (PyError.typeError m) := by
  induction l with
  | nil => simp at hbad
  | cons s rest ih =>
    cases hr : bs s with
    | error e =>
      obtain ⟨m, rfl⟩ := htE s e hr
      exact ⟨m, by simp only [buildList, hr]⟩
    | ok r =>
      obtain ⟨u, hu, e, he⟩ := hbad
      rcases List.mem_cons.1 hu with rfl | hu'
      · rw [hr] at he; cases he
      · obtain ⟨m, hm⟩ := ih ⟨u, hu', e, he⟩
        cases r with
        | none => exact ⟨m, by simp only [buildList, hr, hm]⟩
        | some t => exact ⟨m, by simp only [buildList, hr, hm, Except.map]⟩

theorem buildImageStep_cases (s : Step) :
    (s.step ∉ imageRegistry ∧ buildImageStep s = Except.ok none) ∨
    (s.step ∈ imageRegistry ∧
      ((∃ t, buildImageStep s = Except.ok (some t)) ∨
       (∃ m, buildImageStep s = Except.error (PyError.typeError m)))) := by
  by_cases h1 : s.step = "resize"
  · refine Or.inr ⟨by simp [imageRegistry, h1], ?_⟩
    unfold buildImageStep
    rw [if_pos h1]
    cases hc : checkKw ("ResizeTransform") ["width", "height"] s.params with
    | error e0 =>
        obtain ⟨m, rfl⟩ := checkKw_error_typeError hc
        exact Or.inr ⟨m, rfl⟩
    | ok u =>
        cases hl : s.params.lookup ("width") with
        | none => exact Or.inr ⟨_, rfl⟩
        | some v => cases v with
          | vint w =>
            cases hl2 : s.params.lookup ("height") with
            | none => exact Or.inr ⟨_, rfl⟩
            | some v2 => cases v2 with
              | vint hgt => exact Or.inl ⟨_, rfl⟩
              | vnum q => exact Or.inr ⟨_, rfl⟩
              | vcols cs => exact Or.inr ⟨_, rfl⟩
              | vstr t => exact Or.inr ⟨_, rfl⟩
          | vnum q => exact Or.inr ⟨_, rfl⟩
          | vcols cs => exact Or.inr ⟨_, rfl⟩
          | vstr t => exact Or.inr ⟨_, rfl⟩
  · by_cases h2 : s.step = "normalize"
    · refine Or.inr ⟨by simp [imageRegistry, h2], ?_⟩
      unfold buildImageStep
      rw [if_neg h1, if_pos h2]
      cases hc : checkKw ("NormalizeTransform") ["mean", "std"] s.params with
      | error e0 =>
          obtain ⟨m, rfl⟩ := checkKw_error_typeError hc
          exact Or.inr ⟨m, rfl⟩
      | ok u =>
          cases hl : s.params.lookup ("mean") with
          | none => exact Or.inr ⟨_, rfl⟩
          | some v => cases v with
            | vnum m0 =>
              cases hl2 : s.params.lookup ("std") with
              | none => exact Or.inr ⟨_, rfl⟩
              | some v2 => cases v2 with
                | vnum sd => exact Or.inl ⟨_, rfl⟩
                | vint n => exact Or.inr ⟨_, rfl⟩
                | vcols cs => exact Or.inr ⟨_, rfl⟩
                | vstr t => exact Or.inr ⟨_, rfl⟩
            | vint n => exact Or.inr ⟨_, rfl⟩
            | vcols cs => exact Or.inr ⟨_, rfl⟩
            | vstr t => exact Or.inr ⟨_, rfl⟩
    · by_cases h3 : s.step = "convert_color"
      · refine Or.inr ⟨by simp [imageRegistry, h3], ?_⟩
        unfold buildImageStep
        rw [if_neg h1, if_neg h2, if_pos h3]
        cases hc : checkKw ("ConvertColorTransform") ["code"] s.params with
        | error e0 =>
            obtain ⟨m, rfl⟩ := checkKw_error_typeError hc
            exact Or.inr ⟨m, rfl⟩
        | ok u =>
            cases hl : s.params.lookup ("code") with
            | none => exact Or.inr ⟨_, rfl⟩
            | some v => cases v with
              | vint code => exact Or.inl ⟨_, rfl⟩
              | vnum q => exact Or.inr ⟨_, rfl⟩
              | vcols cs => exact Or.inr ⟨_, rfl⟩
              | vstr t => exact Or.inr ⟨_, rfl⟩
      · refine Or.inl ⟨by simp [imageRegistry, h1, h2, h3], ?_⟩
        unfold buildImageStep
        rw [if_neg h1, if_neg h2, if_neg h3]

theorem buildImageStep_unknown {s : Step} (h : s.step ∉ imageRegistry) :
    buildImageStep s = Except.ok none := by
  rcases buildImageStep_cases s with ⟨_, he⟩ | ⟨hmem, _⟩
  · exact he
  · exact absurd hmem h

theorem buildStep_recognized_some {s : Step} (hmem : s.step ∈ dataRegistry)
    {r : Option Transform} (h : buildStep s = Except.ok r) :
    ∃ t, r = some t := by
  rcases buildStep_cases s with ⟨hno, _⟩ | ⟨_, ⟨t, ht⟩ | ⟨m, hm⟩⟩
  · exact absurd hmem hno
  · rw [ht] at h; exact ⟨t, (Except.ok.inj h).symm⟩
  · rw [hm] at h; cases h

theorem buildImageStep_recognized_some {s : Step} (hmem : s.step ∈ imageRegistry)
    {r : Option ImageTransform} (h : buildImageStep s = Except.ok r) :
    ∃ t, r = some t := by
  rcases buildImageStep_cases s with ⟨hno, _⟩ | ⟨_, ⟨t, ht⟩ | ⟨m, hm⟩⟩
  · exact absurd hmem hno
  · rw [ht] at h; exact ⟨t, (Except.ok.inj h).symm⟩
  · rw [hm] at h; cases h

/-! ## Claim theorems -/

/-- C10: a configuration with an empty `pre_processing_steps` list constructs
successfully (no transforms, a built composition), and `apply` on the
resulting pipeline returns every input unchanged. -/
theorem empty_config_builds_identity_pipeline :
    ∀ d : PData,
      DataPipeline.construct ⟨[]⟩ =
        Except.ok ⟨[], some []⟩ ∧
      DataPipelineState.apply ⟨[], some []⟩ d = Except.ok d :=
  fun _ => ⟨rfl, rfl⟩

/-- C4: on a pipeline whose composition was never built
(`composed_transforms` is `None`), `apply` fails with the `RuntimeError`
guard of `DataPipeline.apply` / `ImagePipeline.apply` for every input, and
the outcome is independent of the input, so no partial transformation of the
input takes place. -/
theorem unbuilt_pipeline_apply_fails :
    (∀ st : DataPipelineState, st.composed_transforms = none →
      (∀ d, st.apply d = Except.error (PyError.runtimeError notBuiltMsg)) ∧
      (∀ d d2, st.apply d = st.apply d2)) ∧
    (∀ st : ImagePipelineState, st.composed_transforms = none →
      (∀ img, st.apply img = Except.error (PyError.runtimeError notBuiltMsg)) ∧
      (∀ img img2, st.apply img = st.apply img2)) := by
  constructor
  · intro st h
    have hap : ∀ d, st.apply d = Except.error (PyError.runtimeError notBuiltMsg) := by
      intro d
      unfold DataPipelineState.apply
      rw [h]
    exact ⟨hap, fun d d2 => by rw [hap d, hap d2]⟩
  · intro st h
    have hap : ∀ img, st.apply img = Except.error (PyError.runtimeError notBuiltMsg) := by
      intro img
      unfold ImagePipelineState.apply
      rw [h]
    exact ⟨hap, fun d d2 => by rw [hap d, hap d2]⟩

/-- Witness for C4 at a concrete un-built pipeline state. -/
theorem unbuilt_pipeline_apply_fails_witness :
    DataPipelineState.apply ⟨[], none⟩ (PData.single dfltDF) =
      Except.error (PyError.runtimeError notBuiltMsg) ∧
    ImagePipelineState.apply ⟨[], none⟩ [] =
      Except.error (PyError.runtimeError notBuiltMsg) :=
  ⟨(unbuilt_pipeline_apply_fails.1 ⟨[], none⟩ rfl).1 (PData.single dfltDF),
   (unbuilt_pipeline_apply_fails.2 ⟨[], none⟩ rfl).1 []⟩

/-- C2: a step whose kind tag is outside the registry of the `if`/`elif`
dispatch contributes no transform and raises nothing — building with it is
the same as building without it, so all recognized steps around it are still
constructed in order — and when every other step builds, construction of the
whole configuration succeeds.  Stated for `DataPipeline` and `ImagePipeline`
alike. -/
theorem unknown_step_silently_skipped :
    (∀ (pre post : List Step) (s : Step), s.step ∉ dataRegistry →
      buildSteps (pre ++ s :: post) = buildSteps (pre ++ post) ∧
      ((∀ u ∈ pre ++ post, ∃ r, buildStep u = Except.ok r) →
        ∃ ts, buildSteps (pre ++ s :: post) = Except.ok ts)) ∧
    (∀ (pre post : List Step) (s : Step), s.step ∉ imageRegistry →
      buildImageSteps (pre ++ s :: post) = buildImageSteps (pre ++ post) ∧
      ((∀ u ∈ pre ++ post, ∃ r, buildImageStep u = Except.ok r) →
        ∃ ts, buildImageSteps (pre ++ s :: post) = Except.ok ts)) := by
  constructor
  · intro pre post s h
    have hskip := buildList_skip (buildStep_unknown h) pre post
    exact ⟨hskip, fun hall => by
      rw [show buildSteps (pre ++ s :: post) = _ from hskip]
      exact buildList_ok_of_all hall⟩
  · intro pre post s h
    have hskip := buildList_skip (buildImageStep_unknown h) pre post
    exact ⟨hskip, fun hall => by
      rw [show buildImageSteps (pre ++ s :: post) = _ from hskip]
      exact buildList_ok_of_all hall⟩

/-- Witness for C2: a concrete unrecognized step between two recognized
steps is skipped and the remaining pipeline still builds. -/
theorem unknown_step_silently_skipped_witness :
    (buildSteps ([⟨"choose_columns", [("columns", PVal.vcols ["price"])]⟩] ++
        ⟨"mystery_step", []⟩ ::
        [⟨"delete_outlier_in_volume", [("volume_threshold", PVal.vnum 100)]⟩]) =
      buildSteps ([⟨"choose_columns", [("columns", PVal.vcols ["price"])]⟩] ++
        [⟨"delete_outlier_in_volume", [("volume_threshold", PVal.vnum 100)]⟩]) ∧
      ((∀ u ∈ [⟨"choose_columns", [("columns", PVal.vcols ["price"])]⟩] ++
          [⟨"delete_outlier_in_volume", [("volume_threshold", PVal.vnum 100)]⟩],
          ∃ r, buildStep u = Except.ok r) →
        ∃ ts, buildSteps ([⟨"choose_columns", [("columns", PVal.vcols ["price"])]⟩] ++
          ⟨"mystery_step", []⟩ ::
          [⟨"delete_outlier_in_volume", [("volume_threshold", PVal.vnum 100)]⟩]) =
            Except.ok ts)) ∧
    (∃ ts, buildSteps ([⟨"choose_columns", [("columns", PVal.vcols ["price"])]⟩] ++
        ⟨"mystery_step", []⟩ ::
        [⟨"delete_outlier_in_volume", [("volume_threshold", PVal.vnum 100)]⟩]) =
          Except.ok ts) := by
  have h := unknown_step_silently_skipped.1
    [⟨"choose_columns", [("columns", PVal.vcols ["price"])]⟩]
    [⟨"delete_outlier_in_volume", [("volume_threshold", PVal.vnum 100)]⟩]
    ⟨"mystery_step", []⟩ (by decide)
  refine ⟨h, h.2 ?_⟩
  intro u hu
  rcases List.mem_cons.1 hu with rfl | hu2
  · exact ⟨_, rfl⟩
  · rcases List.mem_cons.1 hu2 with rfl | hu3
    · exact ⟨_, rfl⟩
    · cases hu3

/-- C1: for a valid configuration (every step builds without raising),
construction succeeds and yields exactly the transforms of the recognized
steps, one per recognized step in declared order (`List.Forall₂` against the
filtered step list), the pipeline object holds that composition, and `apply`
is the left-to-right composition of the transform list; appending a final
step `t` to a composition makes it run last on the result of the others. -/
theorem pipeline_build_order_and_composition :
    (∀ cfg : Config,
      (∀ s ∈ cfg.pre_processing_steps, ∃ r, buildStep s = Except.ok r) →
      ∃ ts, buildSteps cfg.pre_processing_steps = Except.ok ts ∧
        DataPipeline.construct cfg = Except.ok ⟨ts, some ts⟩ ∧
        List.Forall₂ (fun s t => buildStep s = Except.ok (some t))
          (cfg.pre_processing_steps.filter fun s => decide (s.step ∈ dataRegistry)) ts ∧
        ∀ d, DataPipelineState.apply ⟨ts, some ts⟩ d = composeApply applyTransform ts d) ∧
    (∀ cfg : Config,
      (∀ s ∈ cfg.pre_processing_steps, ∃ r, buildImageStep s = Except.ok r) →
      ∃ ts, buildImageSteps cfg.pre_processing_steps = Except.ok ts ∧
        ImagePipeline.construct cfg = Except.ok ⟨ts, some ts⟩ ∧
        List.Forall₂ (fun s t => buildImageStep s = Except.ok (some t))
          (cfg.pre_processing_steps.filter fun s => decide (s.step ∈ imageRegistry)) ts) ∧
    (∀ (τ α : Type) (app : τ → α → Except PyError α) (ts : List τ) (t : τ) (x : α),
      composeApply app (ts ++ [t]) x =
        match composeApply app ts x with
        | Except.error e => Except.error e
        | Except.ok y => app t y) := by
  refine ⟨?_, ?_, ?_⟩
  · intro cfg hall
    obtain ⟨ts, hts, hf⟩ := buildList_forall2
      (p := fun s => decide (s.step ∈ dataRegistry))
      (l := cfg.pre_processing_steps)
      (fun s hs hp => buildStep_unknown (by simpa using hp))
      (fun s hs hp => by
        obtain ⟨r, hr⟩ := hall s hs
        obtain ⟨t, rfl⟩ := buildStep_recognized_some (by simpa using hp) hr
        exact ⟨t, hr⟩)
    refine ⟨ts, hts, ?_, hf, fun d => rfl⟩
    unfold DataPipeline.construct
    rw [show buildSteps cfg.pre_processing_steps = Except.ok ts from hts]
    rfl
  · intro cfg hall
    obtain ⟨ts, hts, hf⟩ := buildList_forall2
      (p := fun s => decide (s.step ∈ imageRegistry))
      (l := cfg.pre_processing_steps)
      (fun s hs hp => buildImageStep_unknown (by simpa using hp))
      (fun s hs hp => by
        obtain ⟨r, hr⟩ := hall s hs
        obtain ⟨t, rfl⟩ := buildImageStep_recognized_some (by simpa using hp) hr
        exact ⟨t, hr⟩)
    refine ⟨ts, hts, ?_, hf⟩
    unfold ImagePipeline.construct
    rw [show buildImageSteps cfg.pre_processing_steps = Except.ok ts from hts]
    rfl
  · intro τ α app ts t x
    induction ts generalizing x with
    | nil => cases h : app t x <;> simp [composeApply, h]
    | cons t0 ts ih =>
      cases h : app t0 x with
      | error e => simp [composeApply, h]
      | ok y =>
        simp only [List.cons_append, composeApply, h]
        exact ih y

/-- Witness for C1 at a concrete two-step configuration. -/
theorem pipeline_build_order_and_composition_witness :
    ∃ ts, buildSteps (Config.mk [⟨"choose_columns", [("columns", PVal.vcols ["price"])]⟩,
        ⟨"delete_outlier_in_volume", [("volume_threshold", PVal.vnum 100)]⟩]).pre_processing_steps =
        Except.ok ts ∧
      DataPipeline.construct (Config.mk [⟨"choose_columns", [("columns", PVal.vcols ["price"])]⟩,
        ⟨"delete_outlier_in_volume", [("volume_threshold", PVal.vnum 100)]⟩]) =
        Except.ok ⟨ts, some ts⟩ ∧
      List.Forall₂ (fun s t => buildStep s = Except.ok (some t))
        ((Config.mk [⟨"choose_columns", [("columns", PVal.vcols ["price"])]⟩,
          ⟨"delete_outlier_in_volume", [("volume_threshold", PVal.vnum 100)]⟩]).pre_processing_steps.filter
            fun s => decide (s.step ∈ dataRegistry)) ts ∧
      ∀ d, DataPipelineState.apply ⟨ts, some ts⟩ d = composeApply applyTransform ts d := by
  apply pipeline_build_order_and_composition.1
  intro s hs
  rcases List.mem_cons.1 hs with rfl | hs2
  · exact ⟨_, rfl⟩
  · rcases List.mem_cons.1 hs2 with rfl | hs3
    · exact ⟨_, rfl⟩
    · cases hs3

/-- C3 counterexample: a parameter-name mismatch on a recognized step raises
the same `TypeError` whether the offending step is the first or the second
configuration entry, so the construction-time error does not identify the
offending step's position (and is a plain `TypeError`, not a distinguished
configuration error carrying position data). -/
theorem param_mismatch_error_carries_no_position :
    buildSteps [⟨"choose_columns", [("cols", PVal.vcols ["price"])]⟩] =
      Except.error (PyError.typeError
        "ChooseColsTransform.__init__() got an unexpected keyword argument cols") ∧
    buildSteps [⟨"delete_outlier_in_volume", [("volume_threshold", PVal.vnum 100)]⟩,
      ⟨"choose_columns", [("cols", PVal.vcols ["price"])]⟩] =
      Except.error (PyError.typeError
        "ChooseColsTransform.__init__() got an unexpected keyword argument cols") :=
  ⟨rfl, rfl⟩

/-- C3 (amended): a recognized step whose keyword names have extras or
omissions relative to the transform's `__init__` signature makes
construction fail at construction time with a `TypeError` — so the pipeline
is never produced and the failure cannot surface at apply time — though the
error does not carry the step's position. -/
theorem param_mismatch_fails_at_construction :
    ∀ cfg : Config,
      (∃ s ∈ cfg.pre_processing_steps, s.step ∈ dataRegistry ∧
        kwNamesOk (expectedKw s.step) s.params = false) →
      ∃ m, buildSteps cfg.pre_processing_steps = Except.error (PyError.typeError m) ∧
        DataPipeline.construct cfg = Except.error (PyError.typeError m) := by
  intro cfg hbad
  obtain ⟨s, hs, hmem, hkw⟩ := hbad
  obtain ⟨m0, hm0⟩ := buildStep_bad_kwargs hmem hkw
  obtain ⟨m, hm⟩ := @buildList_error Transform buildStep cfg.pre_processing_steps
    (fun u e he => buildStep_error_typeError he) ⟨s, hs, _, hm0⟩
  refine ⟨m, hm, ?_⟩
  unfold DataPipeline.construct
  rw [show buildSteps cfg.pre_processing_steps = _ from hm]
  rfl

/-- Witness for the amended C3 at a concrete misnamed-parameter config. -/
theorem param_mismatch_fails_at_construction_witness :
    ∃ m, buildSteps (Config.mk [⟨"choose_columns",
        [("cols", PVal.vcols ["price"])]⟩]).pre_processing_steps =
        Except.error (PyError.typeError m) ∧
      DataPipeline.construct (Config.mk [⟨"choose_columns",
        [("cols", PVal.vcols ["price"])]⟩]) = Except.error (PyError.typeError m) :=
  param_mismatch_fails_at_construction
    (Config.mk [⟨"choose_columns", [("cols", PVal.vcols ["price"])]⟩])
    ⟨⟨"choose_columns", [("cols", PVal.vcols ["price"])]⟩,
      List.mem_cons_self _ _, by decide, by decide⟩

/-- C5: on a frame that has the volume column, the threshold filter
succeeds and keeps exactly the (index, row) records whose volume cell
compares `<=` to the threshold — a record with value `v` is kept iff
`v ≤ T` — leaving the kept records and their relative order unchanged
(the result is the `List.filter` of the original records and a sublist of
them), the columns untouched, and a second application with the same
threshold returns the result unchanged (idempotence). -/
theorem filter_by_threshold_keeps_iff_le :
    ∀ (T : Rat) (df : DataFrame), "volume" ∈ df.cols →
    ∃ df2, deleteOutlier T df = Except.ok df2 ∧
      df2.cols = df.cols ∧
      df2.idx.zip df2.rows = (df.idx.zip df.rows).filter
        (fun p => cellLE (getCell df.cols p.2 ("volume")) T) ∧
      List.Sublist (df2.idx.zip df2.rows) (df.idx.zip df.rows) ∧
      (∀ i r v, (i, r) ∈ df.idx.zip df.rows →
        getCell df.cols r ("volume") = some v →
        ((i, r) ∈ df2.idx.zip df2.rows ↔ v ≤ T)) ∧
      deleteOutlier T df2 = Except.ok df2 := by
  intro T df h
  obtain ⟨cols, idx, rows⟩ := df
  simp only at h ⊢
  have hok : deleteOutlier T ⟨cols, idx, rows⟩ =
      Except.ok ⟨cols, ((idx.zip rows).filter
        (fun p => cellLE (getCell cols p.2 ("volume")) T)).map Prod.fst,
        ((idx.zip rows).filter
        (fun p => cellLE (getCell cols p.2 ("volume")) T)).map Prod.snd⟩ := by
    unfold deleteOutlier
    rw [if_pos h]
  refine ⟨_, hok, rfl, ?_, ?_, ?_, ?_⟩
  · simp only
    rw [zip_map_fst_snd]
  · simp only
    rw [zip_map_fst_snd]
    exact List.filter_sublist _
  · intro i r v hmem hv
    simp only
    rw [zip_map_fst_snd]
    constructor
    · intro hm
      have hp := (List.mem_filter.1 hm).2
      simp only [hv, cellLE] at hp
      exact of_decide_eq_true hp
    · intro hle
      refine List.mem_filter.2 ⟨hmem, ?_⟩
      simp only [hv, cellLE]
      exact decide_eq_true hle
  · unfold deleteOutlier
    rw [if_pos (show ("volume") ∈ (⟨cols, _, _⟩ : DataFrame).cols from h)]
    simp only
    rw [zip_map_fst_snd]
    rw [List.filter_eq_self.2 (fun a ha => (List.mem_filter.1 ha).2)]

/-- Witness for C5 at a concrete frame with volumes 50 and 150 against
threshold 100. -/
theorem filter_by_threshold_keeps_iff_le_witness :
    ∃ df2, deleteOutlier 100 ⟨["price", "volume"], [0, 1],
        [[some 10, some 50], [some 20, some 150]]⟩ = Except.ok df2 ∧
      df2.cols = (⟨["price", "volume"], [0, 1],
        [[some 10, some 50], [some 20, some 150]]⟩ : DataFrame).cols ∧
      df2.idx.zip df2.rows =
        ((⟨["price", "volume"], [0, 1],
          [[some 10, some 50], [some 20, some 150]]⟩ : DataFrame).idx.zip
         (⟨["price", "volume"], [0, 1],
          [[some 10, some 50], [some 20, some 150]]⟩ : DataFrame).rows).filter
          (fun p => cellLE (getCell (⟨["price", "volume"], [0, 1],
            [[some 10, some 50], [some 20, some 150]]⟩ : DataFrame).cols p.2 ("volume")) 100) ∧
      List.Sublist (df2.idx.zip df2.rows)
        ((⟨["price", "volume"], [0, 1],
          [[some 10, some 50], [some 20, some 150]]⟩ : DataFrame).idx.zip
         (⟨["price", "volume"], [0, 1],
          [[some 10, some 50], [some 20, some 150]]⟩ : DataFrame).rows) ∧
      (∀ i r v, (i, r) ∈ (⟨["price", "volume"], [0, 1],
          [[some 10, some 50], [some 20, some 150]]⟩ : DataFrame).idx.zip
          (⟨["price", "volume"], [0, 1],
          [[some 10, some 50], [some 20, some 150]]⟩ : DataFrame).rows →
        getCell (⟨["price", "volume"], [0, 1],
          [[some 10, some 50], [some 20, some 150]]⟩ : DataFrame).cols r ("volume") = some v →
        ((i, r) ∈ df2.idx.zip df2.rows ↔ v ≤ 100)) ∧
      deleteOutlier 100 df2 = Except.ok df2 :=
  filter_by_threshold_keeps_iff_le 100
    ⟨["price", "volume"], [0, 1], [[some 10, some 50], [some 20, some 150]]⟩
    (by decide)

/-- C6: column selection returns a frame whose column list is exactly the
requested list, in the requested order, with the index kept and every row
projected to those columns, whenever every requested column is present; and
it raises the `KeyError` naming the missing labels as soon as any requested
column is absent from the input. -/
theorem choose_columns_exact_or_keyerror :
    ∀ (cs : List String) (df : DataFrame),
      ((∀ c ∈ cs, c ∈ df.cols) →
        chooseColumns cs df = Except.ok
          ⟨cs, df.idx, df.rows.map (fun r => cs.map (fun c => getCell df.cols r c))⟩) ∧
      ((∃ c ∈ cs, c ∉ df.cols) →
        chooseColumns cs df = Except.error (PyError.keyError
          ("[" ++ String.intercalate (", ") (cs.filter (fun c => decide (c ∉ df.cols))) ++
            "] not in index"))) := by
  intro cs df
  constructor
  · intro hall
    unfold chooseColumns
    have hnil : cs.filter (fun c => decide (c ∉ df.cols)) = [] := by
      rw [List.filter_eq_nil_iff]
      intro c hc
      simp [hall c hc]
    rw [hnil]
    rfl
  · intro hmiss
    obtain ⟨c, hc, hnc⟩ := hmiss
    have hne : (cs.filter (fun c => decide (c ∉ df.cols))).isEmpty = false := by
      rcases he : (cs.filter (fun c => decide (c ∉ df.cols))).isEmpty with _ | _
      · rfl
      · exfalso
        rw [List.isEmpty_iff, List.filter_eq_nil_iff] at he
        exact (he c hc) (by simpa using hnc)
    simp only [chooseColumns, hne, Bool.false_eq_true, if_false]

/-- Witness for C6: selecting present columns succeeds exactly; requesting
the absent column y fails with the `KeyError`. -/
theorem choose_columns_exact_or_keyerror_witness :
    chooseColumns ["price"] ⟨["price", "volume"], [0], [[some 1, some 2]]⟩ =
      Except.ok ⟨["price"],
        (⟨["price", "volume"], [0], [[some 1, some 2]]⟩ : DataFrame).idx,
        (⟨["price", "volume"], [0], [[some 1, some 2]]⟩ : DataFrame).rows.map
          (fun r => ["price"].map (fun c => getCell
            (⟨["price", "volume"], [0], [[some 1, some 2]]⟩ : DataFrame).cols r c))⟩ ∧
    chooseColumns ["x", "y"] ⟨["x"], [0], [[some 1]]⟩ =
      Except.error (PyError.keyError
        ("[" ++ String.intercalate (", ") (["x", "y"].filter
          (fun c => decide (c ∉ (⟨["x"], [0], [[some 1]]⟩ : DataFrame).cols))) ++
          "] not in index")) :=
  ⟨(choose_columns_exact_or_keyerror ["price"]
      ⟨["price", "volume"], [0], [[some 1, some 2]]⟩).1 (by decide),
   (choose_columns_exact_or_keyerror ["x", "y"] ⟨["x"], [0], [[some 1]]⟩).2
      ⟨"y", by decide, by decide⟩⟩

theorem mapExcept_ok_forall2 {f : α → Except PyError β} {l : List α} {out : List β}
    (h : mapExcept f l = Except.ok out) :
    List.Forall₂ (fun a b => f a = Except.ok b) l out := by
  induction l generalizing out with
  | nil =>
    unfold mapExcept at h
    rw [← Except.ok.inj h]
    exact List.Forall₂.nil
  | cons a l ih =>
    unfold mapExcept at h
    cases hfa : f a with
    | error e => rw [hfa] at h; cases h
    | ok b =>
      rw [hfa] at h
      obtain ⟨bs, hbs, hmap⟩ := except_map_ok h
      rw [← hmap]
      exact List.Forall₂.cons hfa (ih hbs)

/-- C7: each collection-aware transform (column selection and the threshold
filter, exactly those with a per-frame body) maps a Python list of K frames
elementwise — the result on a list is the elementwise mapping, so a
successful result is a list of the same length whose i-th entry is the
per-frame body applied to the i-th input — and on a single frame returns the
single-frame result. -/
theorem collection_aware_transforms_elementwise :
    ∀ (t : Transform) (f : DataFrame → Except PyError DataFrame),
      perFrame t = some f →
      (∀ dfs, applyTransform t (PData.many dfs) =
        (mapExcept f dfs).map PData.many) ∧
      (∀ dfs out, mapExcept f dfs = Except.ok out →
        List.Forall₂ (fun a b => f a = Except.ok b) dfs out) ∧
      (∀ dfs out, applyTransform t (PData.many dfs) = Except.ok (PData.many out) →
        out.length = dfs.length) ∧
      (∀ df, applyTransform t (PData.single df) = (f df).map PData.single) := by
  intro t f hpf
  have key : (∀ dfs, applyTransform t (PData.many dfs) =
        (mapExcept f dfs).map PData.many) ∧
      (∀ df, applyTransform t (PData.single df) = (f df).map PData.single) := by
    cases t with
    | chooseCols cs =>
      rw [show f = chooseColumns cs from (Option.some.inj hpf).symm]
      exact ⟨fun dfs => rfl, fun df => rfl⟩
    | deleteOutlier v =>
      rw [show f = deleteOutlier v from (Option.some.inj hpf).symm]
      exact ⟨fun dfs => rfl, fun df => rfl⟩
    | concat jt => cases hpf
  refine ⟨key.1, fun dfs out h => mapExcept_ok_forall2 h, ?_, key.2⟩
  intro dfs out h
  rw [key.1 dfs] at h
  obtain ⟨bs, hbs, hmany⟩ := except_map_ok h
  rw [← PData.many.inj hmany]
  exact (mapExcept_ok_forall2 hbs).length_eq.symm

/-- Witness for C7 with the column-selection transform on a two-element list
and on a single frame. -/
theorem collection_aware_transforms_elementwise_witness :
    (∀ dfs, applyTransform (Transform.chooseCols ["a"]) (PData.many dfs) =
      (mapExcept (chooseColumns ["a"]) dfs).map PData.many) ∧
    (∀ dfs out, mapExcept (chooseColumns ["a"]) dfs = Except.ok out →
      List.Forall₂ (fun a b => chooseColumns ["a"] a = Except.ok b) dfs out) ∧
    (∀ dfs out, applyTransform (Transform.chooseCols ["a"]) (PData.many dfs) =
      Except.ok (PData.many out) → out.length = dfs.length) ∧
    (∀ df, applyTransform (Transform.chooseCols ["a"]) (PData.single df) =
      (chooseColumns ["a"] df).map PData.single) :=
  collection_aware_transforms_elementwise (Transform.chooseCols ["a"])
    (chooseColumns ["a"]) rfl

theorem mem_foldl_union {c : String} :
    ∀ (l : List DataFrame) (init : List String),
      (c ∈ l.foldl (fun acc d => acc ++ d.cols.filter (fun x => decide (x ∉ acc))) init ↔
        c ∈ init ∨ ∃ d ∈ l, c ∈ d.cols) := by
  intro l
  induction l with
  | nil => simp
  | cons d l ih =>
    intro init
    have hstep : c ∈ init ++ d.cols.filter (fun x => decide (x ∉ init)) ↔
        c ∈ init ∨ c ∈ d.cols := by
      rw [List.mem_append, List.mem_filter, decide_eq_true_eq]
      constructor
      · rintro (hin | ⟨hd, _⟩)
        · exact Or.inl hin
        · exact Or.inr hd
      · rintro (hin | hd)
        · exact Or.inl hin
        · by_cases hin2 : c ∈ init
          · exact Or.inl hin2
          · exact Or.inr ⟨hd, hin2⟩
    rw [List.foldl_cons, ih, hstep]
    constructor
    · rintro ((hin | hd) | ⟨u, hu, hc⟩)
      · exact Or.inl hin
      · exact Or.inr ⟨d, List.mem_cons_self d l, hd⟩
      · exact Or.inr ⟨u, List.mem_cons_of_mem d hu, hc⟩
    · rintro (hin | ⟨u, hu, hc⟩)
      · exact Or.inl (Or.inl hin)
      · rcases List.mem_cons.1 hu with rfl | hu2
        · exact Or.inl (Or.inr hc)
        · exact Or.inr ⟨u, hu2, hc⟩

theorem getCell_projRow_none {srcCols outCols : List String} {r : List Cell}
    {c : String} (hmem : c ∈ outCols) (hnc : c ∉ srcCols) :
    getCell outCols (projRow srcCols outCols r) c = none := by
  unfold getCell projRow
  rw [List.getD_eq_getElem?_getD, List.getElem?_map, List.getElem?_indexOf hmem]
  simp [hnc]

/-- C8: on any non-empty list of frames, concatenation yields exactly one
merged frame whose row count is the sum of the inputs' row counts and whose
index is the freshly assigned contiguous 0-based range; its rows are the
inputs' rows reindexed onto the output columns in order; with join `inner`
the output columns are exactly those present in every input, with `outer`
exactly those present in some input, and a reindexed cell under a column the
source frame lacks is the no-value marker. -/
theorem concat_merges_into_one :
    ∀ (jt : String) (dfs : List DataFrame),
      dfs ≠ [] → (jt = "inner" ∨ jt = "outer") →
      ∃ df2, concatDF jt dfs = Except.ok df2 ∧
        applyTransform (Transform.concat jt) (PData.many dfs) =
          Except.ok (PData.single df2) ∧
        df2.rows.length = (dfs.map (fun d => d.rows.length)).sum ∧
        df2.idx = List.range df2.rows.length ∧
        df2.rows = (dfs.map (fun d => d.rows.map (projRow d.cols df2.cols))).flatten ∧
        (jt = "inner" → ∀ c, c ∈ df2.cols ↔ ∀ d ∈ dfs, c ∈ d.cols) ∧
        (jt = "outer" → ∀ c, c ∈ df2.cols ↔ ∃ d ∈ dfs, c ∈ d.cols) ∧
        (∀ (d : DataFrame) (r : List Cell) (c : String), c ∈ df2.cols → c ∉ d.cols →
          getCell df2.cols (projRow d.cols df2.cols r) c = none) := by
  intro jt dfs hne hjt
  have hnE : dfs.isEmpty = false := by
    rcases dfs with _ | ⟨d0, rest⟩
    · exact absurd rfl hne
    · rfl
  obtain ⟨outCols, hoc, hocMem⟩ :
      ∃ oc, concatCols jt dfs = Except.ok oc ∧
        ((jt = "inner" → ∀ c, c ∈ oc ↔ ∀ d ∈ dfs, c ∈ d.cols) ∧
         (jt = "outer" → ∀ c, c ∈ oc ↔ ∃ d ∈ dfs, c ∈ d.cols)) := by
    rcases hjt with rfl | rfl
    · refine ⟨(dfs.headD dfltDF).cols.filter (fun c => decide (∀ d ∈ dfs, c ∈ d.cols)),
        by unfold concatCols; rw [if_pos rfl], ?_, ?_⟩
      · intro _ c
        rcases dfs with _ | ⟨d0, rest⟩
        · exact absurd rfl hne
        · simp only [List.headD_cons, List.mem_filter, decide_eq_true_eq]
          constructor
          · exact fun ⟨_, hall⟩ => hall
          · exact fun hall => ⟨hall d0 (List.mem_cons_self d0 rest), hall⟩
      · intro hcontra
        exact absurd hcontra (by decide)
    · refine ⟨dfs.foldl (fun acc d => acc ++ d.cols.filter (fun x => decide (x ∉ acc))) [],
        by unfold concatCols; rw [if_neg (by decide), if_pos rfl], ?_, ?_⟩
      · intro hcontra
        exact absurd hcontra (by decide)
      · intro _ c
        rw [mem_foldl_union]
        simp
  have hraw : concatRaw jt dfs = Except.ok
      ⟨outCols, (dfs.map (fun d => d.idx)).flatten,
       (dfs.map (fun d => d.rows.map (projRow d.cols outCols))).flatten⟩ := by
    unfold concatRaw
    rw [hnE, hoc]
    rfl
  have hcc : concatDF jt dfs = Except.ok
      ⟨outCols,
       List.range (dfs.map (fun d => d.rows.map (projRow d.cols outCols))).flatten.length,
       (dfs.map (fun d => d.rows.map (projRow d.cols outCols))).flatten⟩ := by
    unfold concatDF
    rw [hraw]
    rfl
  refine ⟨_, hcc, ?_, ?_, rfl, rfl, ?_, ?_, ?_⟩
  · have happ : applyTransform (Transform.concat jt) (PData.many dfs) =
        (concatDF jt dfs).map PData.single := rfl
    rw [happ, hcc]
    rfl
  · have hcomp : (List.length ∘ fun d : DataFrame =>
        List.map (projRow d.cols outCols) d.rows) =
        fun d : DataFrame => d.rows.length := by
      funext d
      simp [Function.comp]
    simp only [List.length_flatten, List.map_map, hcomp]
  · exact hocMem.1
  · exact hocMem.2
  · intro d r c hcm hnc
    exact getCell_projRow_none hcm hnc

/-- Witness for C8: inner concatenation of frames with column sets a,b and
b,c keeps only column b, sums the row counts, and reassigns a 0-based
index. -/
theorem concat_merges_into_one_witness :
    ∃ df2, concatDF ("inner") [⟨["a", "b"], [0], [[some 1, some 2]]⟩,
        ⟨["b", "c"], [5], [[some 3, some 4]]⟩] = Except.ok df2 ∧
      applyTransform (Transform.concat ("inner"))
        (PData.many [⟨["a", "b"], [0], [[some 1, some 2]]⟩,
          ⟨["b", "c"], [5], [[some 3, some 4]]⟩]) =
        Except.ok (PData.single df2) ∧
      df2.rows.length = (([⟨["a", "b"], [0], [[some 1, some 2]]⟩,
        ⟨["b", "c"], [5], [[some 3, some 4]]⟩] : List DataFrame).map
          (fun d => d.rows.length)).sum ∧
      df2.idx = List.range df2.rows.length ∧
      df2.rows = (([⟨["a", "b"], [0], [[some 1, some 2]]⟩,
        ⟨["b", "c"], [5], [[some 3, some 4]]⟩] : List DataFrame).map
          (fun d => d.rows.map (projRow d.cols df2.cols))).flatten ∧
      ("inner" = "inner" → ∀ c, c ∈ df2.cols ↔
        ∀ d ∈ ([⟨["a", "b"], [0], [[some 1, some 2]]⟩,
          ⟨["b", "c"], [5], [[some 3, some 4]]⟩] : List DataFrame), c ∈ d.cols) ∧
      ("inner" = "outer" → ∀ c, c ∈ df2.cols ↔
        ∃ d ∈ ([⟨["a", "b"], [0], [[some 1, some 2]]⟩,
          ⟨["b", "c"], [5], [[some 3, some 4]]⟩] : List DataFrame), c ∈ d.cols) ∧
      (∀ (d : DataFrame) (r : List Cell) (c : String), c ∈ df2.cols → c ∉ d.cols →
        getCell df2.cols (projRow d.cols df2.cols r) c = none) :=
  concat_merges_into_one ("inner")
    [⟨["a", "b"], [0], [[some 1, some 2]]⟩, ⟨["b", "c"], [5], [[some 3, some 4]]⟩]
    (by decide) (Or.inl rfl)

theorem getD_append_left {l l2 : List DataFrame} {i : Nat} (hi : i < l.length) :
    (l ++ l2).getD i dfltDF = l.getD i dfltDF := by
  rw [List.getD_eq_getElem?_getD, List.getD_eq_getElem?_getD, List.getElem?_append,
    if_pos hi]

theorem allocMany_ok {f : DataFrame → Except PyError DataFrame} :
    ∀ {h : Heap} {rs : List Nat} {h2 : Heap} {rs2 : List Nat},
      allocMany f h rs = Except.ok (h2, rs2) →
      (∀ i, i < h.length → h2.getD i dfltDF = h.getD i dfltDF) ∧
      h.length ≤ h2.length ∧ (∀ r ∈ rs2, h.length ≤ r) := by
  intro h rs
  induction rs generalizing h with
  | nil =>
    intro h2 rs2 hok
    unfold allocMany at hok
    obtain ⟨he, hr⟩ := Prod.mk.injEq .. ▸ (Except.ok.inj hok)
    rw [← he]
    exact ⟨fun i _ => rfl, Nat.le_refl _, by rw [← hr]; intro r hr2; cases hr2⟩
  | cons r rs ih =>
    intro h2 rs2 hok
    unfold allocMany at hok
    cases hf : f (h.getD r dfltDF) with
    | error e => rw [hf] at hok; cases hok
    | ok df =>
      rw [hf] at hok
      obtain ⟨⟨h3, rs3⟩, hrec, hmk⟩ := except_map_ok hok
      obtain ⟨he, hr⟩ := Prod.mk.injEq .. ▸ hmk
      obtain ⟨hpre, hlen, hfresh⟩ := ih hrec
      have hstep : h.length ≤ (h ++ [df]).length := by
        rw [List.length_append]
        exact Nat.le_add_right _ _
      refine ⟨?_, ?_, ?_⟩
      · intro i hi
        rw [← he, hpre i (Nat.lt_of_lt_of_le hi hstep), getD_append_left hi]
      · rw [← he]
        exact Nat.le_trans hstep hlen
      · rw [← hr]
        intro r2 hr2
        rcases List.mem_cons.1 hr2 with rfl | hr3
        · exact Nat.le_refl _
        · exact Nat.le_trans hstep (hfresh r2 hr3)

/-- C9: no tabular transform mutates its input: at the heap level, a
successful `__call__` of any registry transform leaves every pre-existing
heap cell unchanged (the source frames are only read; the single in-place
operation, `reset_index(inplace=True)`, targets the freshly created
`pd.concat` result), the heap only grows, and every returned reference is a
freshly created object. -/
theorem transforms_do_not_mutate_inputs :
    ∀ (t : Transform) (h h2 : Heap) (p p2 : PRef),
      applyTransformH t h p = Except.ok (h2, p2) →
      (∀ i, i < h.length → h2.getD i dfltDF = h.getD i dfltDF) ∧
      h.length ≤ h2.length ∧ refFresh p2 h := by
  have hsingle : ∀ (h : Heap) (df : DataFrame),
      (∀ i, i < h.length → (h ++ [df]).getD i dfltDF = h.getD i dfltDF) ∧
      h.length ≤ (h ++ [df]).length ∧ refFresh (PRef.single h.length) h := by
    intro h df
    refine ⟨fun i hi => getD_append_left hi, ?_, Nat.le_refl _⟩
    rw [List.length_append]
    exact Nat.le_add_right _ _
  intro t h h2 p p2 hok
  cases t with
  | chooseCols cs =>
    cases p with
    | single r =>
      obtain ⟨df, _, hmk⟩ := except_map_ok hok
      obtain ⟨he, hp⟩ := Prod.mk.injEq .. ▸ hmk
      rw [← he, ← hp]
      exact hsingle h df
    | many rs =>
      obtain ⟨⟨h3, rs3⟩, hrec, hmk⟩ := except_map_ok hok
      obtain ⟨he, hp⟩ := Prod.mk.injEq .. ▸ hmk
      obtain ⟨hpre, hlen, hfresh⟩ := allocMany_ok hrec
      rw [← he, ← hp]
      exact ⟨hpre, hlen, hfresh⟩
  | deleteOutlier v =>
    cases p with
    | single r =>
      obtain ⟨df, _, hmk⟩ := except_map_ok hok
      obtain ⟨he, hp⟩ := Prod.mk.injEq .. ▸ hmk
      rw [← he, ← hp]
      exact hsingle h df
    | many rs =>
      obtain ⟨⟨h3, rs3⟩, hrec, hmk⟩ := except_map_ok hok
      obtain ⟨he, hp⟩ := Prod.mk.injEq .. ▸ hmk
      obtain ⟨hpre, hlen, hfresh⟩ := allocMany_ok hrec
      rw [← he, ← hp]
      exact ⟨hpre, hlen, hfresh⟩
  | concat jt =>
    cases p with
    | single r => cases hok
    | many rs =>
      obtain ⟨raw, _, hmk⟩ := except_map_ok hok
      obtain ⟨he, hp⟩ := Prod.mk.injEq .. ▸ hmk
      rw [← he, ← hp]
      refine ⟨?_, ?_, Nat.le_refl _⟩
      · intro i hi
        rw [List.getD_eq_getElem?_getD, List.getD_eq_getElem?_getD,
          List.getElem?_set_ne (Nat.ne_of_lt hi).symm, List.getElem?_append,
          if_pos hi]
      · rw [List.length_set, List.length_append]
        exact Nat.le_add_right _ _

/-- Witness for C9: column selection on a one-frame heap leaves the original
cell unchanged and returns a fresh reference. -/
theorem transforms_do_not_mutate_inputs_witness :
    (∀ i, i < ([dfltDF] : Heap).length →
      ([dfltDF, dfltDF] : Heap).getD i dfltDF = ([dfltDF] : Heap).getD i dfltDF) ∧
    ([dfltDF] : Heap).length ≤ ([dfltDF, dfltDF] : Heap).length ∧
    refFresh (PRef.single 1) [dfltDF] :=
  transforms_do_not_mutate_inputs (Transform.chooseCols []) [dfltDF]
    [dfltDF, dfltDF] (PRef.single 0) (PRef.single 1) rfl

end Pipeline
